import Mathlib

/-!
Shallow embedding of the `mcp-notes` storage core (`mcp_notes/storage.py`).

Conventions of the embedding:
* Filesystem paths below the store root are lists of path components
  (`List String`); the empty list is the store root itself.  The Python code
  manipulates the same paths as '/'-separated strings and via `pathlib`;
  for component strings that are nonempty and contain no '/', the two views
  are in exact correspondence (`'/' in s` ↔ `comps.length ≥ 2`,
  `s.split('/')[:-1]` ↔ `comps.dropLast`, `f'{a}/{b}'` ↔ `a ++ b`, …).
* The on-disk state is a record of the note files (path ↦ raw text), the
  per-directory `notes_index.json` files (directory ↦ parsed index), and the
  set of existing subdirectories.  Indexes are insertion-ordered association
  lists keyed by title, matching Python `dict` / JSON-object semantics.
* `Storage.directory` (the root) only matters for resolving caller-supplied
  paths and for the value `add_note` returns; it is modelled by `RootPath`,
  a path that is either absolute or relative, with `pathlib`'s join rule
  (joining with an absolute right operand discards the left operand).
-/

/-- One value of a per-directory index: the JSON object
`{"filename": …, "tags": …, "children-count"?: …, "descendant-count"?: …}`.
The two count fields are optional, mirroring their presence-only-when-nonzero
shape on disk. -/
structure Entry where
  filename : List String
  tags : List String
  childrenCount : Option Nat := none
  descendantCount : Option Nat := none
deriving Repr, DecidableEq

/-- A parsed `notes_index.json`: an insertion-ordered mapping title ↦ entry. -/
abbrev NoteIndex := List (String × Entry)

/-- The on-disk state of a store, relative to the store root. -/
structure FS where
  notes : List (List String × String)
  indexes : List (List String × NoteIndex)
  dirs : List (List String)
deriving Repr, DecidableEq

def FS.empty : FS := ⟨[], [], []⟩

/-- Association-list lookup (first match), mirroring `dict.__getitem__` /
`dict.get`. -/
def lookupA {α β : Type} [DecidableEq α] : List (α × β) → α → Option β
  | [], _ => none
  | (k, v) :: t, a => if k = a then some v else lookupA t a

/-- Association-list update, mirroring `d[k] = v` on a Python `dict`:
an existing key keeps its position, a new key is appended. -/
def insertA {α β : Type} [DecidableEq α] : List (α × β) → α → β → List (α × β)
  | [], a, b => [(a, b)]
  | (k, v) :: t, a, b => if k = a then (a, b) :: t else (k, v) :: insertA t a b

/-- Association-list deletion, mirroring `del d[k]`. -/
def eraseA {α β : Type} [DecidableEq α] : List (α × β) → α → List (α × β)
  | [], _ => []
  | (k, v) :: t, a => if k = a then t else (k, v) :: eraseA t a

/-- `s.endswith(pat)` on code points (the string primitives below are spelt
out on `List Char` so that they compute by kernel reduction and match
Python's code-point view of strings). -/
def strEndsWith (s pat : String) : Bool := pat.data.isSuffixOf s.data

/-- `s.startswith(pat)` on code points. -/
def strStartsWith (s pat : String) : Bool := pat.data.isPrefixOf s.data

/-- Python's `pat in s` on code points (`pat` nonempty at every use). -/
def containsSub : List Char → List Char → Bool
  | l, pat =>
    if pat.isPrefixOf l then true
    else match l with
      | [] => false
      | _ :: t => containsSub t pat

/-- `s.replace(old, new)` on code points: leftmost-first, non-overlapping.
The fuel argument (always called with `length + 1`) only totalises the
non-structural recursion; with a nonempty pattern every step consumes at
least one character, so it is never exhausted. -/
def replaceCA (pat rep : List Char) : Nat → List Char → List Char
  | 0, l => l
  | _ + 1, [] => []
  | fuel + 1, c :: rest =>
    if pat.isPrefixOf (c :: rest) then
      rep ++ replaceCA pat rep fuel ((c :: rest).drop pat.length)
    else c :: replaceCA pat rep fuel rest

def strReplace (s pat rep : String) : String :=
  ⟨replaceCA pat.data rep.data (s.data.length + 1) s.data⟩

/-- `s.split('\n')`: the pieces between newlines, one more piece than
newlines, matching Python's `str.split` with an explicit separator. -/
def splitNlAux : List Char → List Char → List (List Char)
  | acc, [] => [acc.reverse]
  | acc, c :: rest =>
    if c = '\n' then acc.reverse :: splitNlAux [] rest
    else splitNlAux (c :: acc) rest

def strSplitNl (s : String) : List String :=
  (splitNlAux [] s.data).map String.mk

/-- One character of `s.lower()`.  Python applies the full Unicode lowercase
mapping.  The model lowers ASCII `A`–`Z`, expands U+0130 (LATIN CAPITAL
LETTER I WITH DOT ABOVE) to `i` followed by U+0307 — the only one-to-many
lowercase mapping in Unicode — and maps U+212A (KELVIN SIGN) to `k`; those
two are the only code points in Unicode whose lowercase contains an ASCII
letter or digit.  Every other character lowers to itself or to another
non-ASCII character, and the `[^a-zA-Z0-9]` regex of `_title_to_filename` —
the lone consumer of this function — turns the lowered character into `_`
exactly as it would the original, so keeping those characters unchanged is
invisible to the program's behaviour. -/
def charLower (c : Char) : List Char :=
  if 'A' ≤ c ∧ c ≤ 'Z' then [Char.ofNat (c.toNat + 32)]
  else if c = '\u0130' then ['i', '\u0307']
  else if c = '\u212A' then ['k']
  else [c]

/-- `s.lower()`. -/
def strToLower (s : String) : String := ⟨(s.data.map charLower).flatten⟩

/-- Python's `<=` on strings: lexicographic on code points. -/
def leChars : List Char → List Char → Bool
  | [], _ => true
  | _ :: _, [] => false
  | a :: as, b :: bs => if a = b then leChars as bs else decide (a < b)

def pyStrLe (a b : String) : Bool := leChars a.data b.data

/-- Strip a trailing `.md` from one path component
(`filename[:-3] if filename.endswith('.md') else filename`). -/
def stripMd (s : String) : String :=
  if strEndsWith s ".md" then s.dropRight 3 else s

/-- Strip `.md` from the last component of a path.  A component that becomes
empty is dropped, matching `pathlib` normalisation (`root / 'x/' ≡ root / 'x'`,
`root / '' ≡ root`). -/
def stripMdPath : List String → List String
  | [] => []
  | [x] => if stripMd x = "" then [] else [stripMd x]
  | x :: xs => x :: stripMdPath xs

/-- Append `.md` to the last component of a path (building
`f'{…}.md'` expected filenames in `_update_parent_counts`). -/
def withMd : List String → List String
  | [] => []
  | [x] => [x ++ ".md"]
  | x :: xs => x :: withMd xs

/-- The path of a directory's `notes_index.json`. -/
def indexPathOf (d : List String) : List String := d ++ ["notes_index.json"]

/-- `Path.exists()` for a path below the store root: the root itself, a note
file, an existing subdirectory, or an index file. -/
def pathExists (fs : FS) (p : List String) : Bool :=
  decide (p = []) || (lookupA fs.notes p).isSome || decide (p ∈ fs.dirs)
    || fs.indexes.any (fun di => decide (indexPathOf di.1 = p))

/-- `_load_index`: the parsed index of a directory, `{}` when the file is
absent. -/
def loadIndex (fs : FS) (d : List String) : NoteIndex :=
  (lookupA fs.indexes d).getD []

/-- The nonempty prefixes of a path, shortest first. -/
def prefixesNE (p : List String) : List (List String) :=
  (List.range p.length).map (fun i => p.take (i + 1))

/-- Record one directory as existing (no-op for the root or an already
existing directory). -/
def addDir (dirs : List (List String)) (d : List String) : List (List String) :=
  if d = [] ∨ d ∈ dirs then dirs else dirs ++ [d]

/-- `mkdir(parents=True, exist_ok=True)`: create a directory and all its
ancestors. -/
def mkdirParents (dirs : List (List String)) (d : List String) : List (List String) :=
  (prefixesNE d).foldl addDir dirs

/-- `_calculate_children_count`: the number of entries in the index of the
note's same-named child directory, 0 when that directory does not exist. -/
def calcChildrenCount (fs : FS) (noteFilename : List String) : Nat :=
  let dirName := stripMdPath noteFilename
  if pathExists fs dirName then (loadIndex fs dirName).length else 0

/-- The path the recursion of `_calculate_descendant_count` descends to for a
child entry: `f'{dir_name}/{child_filename.split("/", 1)[1]}'` when the child
filename has a '/', else `f'{dir_name}/{child_filename}'`. -/
def childRecursePath (dirName childFilename : List String) : List String :=
  if childFilename.length ≥ 2 then dirName ++ childFilename.drop 1
  else dirName ++ childFilename

/-- `_calculate_descendant_count`, totalised by fuel: the Python function
recurses through on-disk indexes and diverges on adversarial states, so each
call site passes `descFuel`, which strictly dominates the recursion depth on
states the code itself produces (one level per nested index, plus slack). -/
def calcDescendantCount (fs : FS) : Nat → List String → Nat
  | 0, _ => 0
  | fuel + 1, noteFilename =>
    let dirName := stripMdPath noteFilename
    if pathExists fs dirName then
      let idx := loadIndex fs dirName
      idx.length +
        (idx.map (fun te =>
          calcDescendantCount fs fuel (childRecursePath dirName te.2.filename))).sum
    else 0

/-- Fuel bound for `calcDescendantCount`: the recursion does real work only
at directories that have an index file, with strictly longer paths at each
level, so the number of index files plus slack bounds the depth. -/
def descFuel (fs : FS) : Nat := fs.indexes.length + 2

/-- The count-refreshing loop at the top of `_save_index`: recompute
`children-count`/`descendant-count` of every entry against the on-disk state,
keeping both fields only when the children count is positive. -/
def updateCounts (fs : FS) (idx : NoteIndex) : NoteIndex :=
  idx.map (fun te =>
    let cc := calcChildrenCount fs te.2.filename
    let dc := calcDescendantCount fs (descFuel fs) te.2.filename
    if cc > 0 then
      (te.1, { te.2 with childrenCount := some cc, descendantCount := some dc })
    else
      (te.1, { te.2 with childrenCount := none, descendantCount := none }))

/-- `_save_index`: refresh every entry's counts, create the directory of the
index file if missing, and write the file. -/
def saveIndex (fs : FS) (idx : NoteIndex) (d : List String) : FS :=
  { fs with
    indexes := insertA fs.indexes d (updateCounts fs idx),
    dirs := mkdirParents fs.dirs d }

/-- The character class `[a-zA-Z0-9]` of `_title_to_filename`'s regex. -/
def isAsciiAlnum (c : Char) : Bool :=
  ('a' ≤ c && c ≤ 'z') || ('A' ≤ c && c ≤ 'Z') || ('0' ≤ c && c ≤ '9')

/-- `re.sub(r'_+', '_', …)`: collapse each run of underscores to one. -/
def collapseU : List Char → List Char
  | [] => []
  | [c] => [c]
  | c1 :: c2 :: rest =>
    if c1 = '_' ∧ c2 = '_' then collapseU (c2 :: rest)
    else c1 :: collapseU (c2 :: rest)

/-- `.strip('_')`: drop leading and trailing underscores. -/
def stripU (l : List Char) : List Char :=
  ((l.dropWhile (· = '_')).reverse.dropWhile (· = '_')).reverse

/-- `_title_to_filename`: lowercase (ASCII, as far as the claims reach),
replace every character outside `[a-zA-Z0-9]` with `_`, collapse runs of `_`,
strip leading/trailing `_`, append `.md`. -/
def titleToFilename (title : String) : String :=
  let lowered := strToLower title
  let replaced := lowered.data.map (fun c => if isAsciiAlnum c then c else '_')
  String.mk (stripU (collapseU replaced)) ++ ".md"

/-- `base_filename.rsplit('.', 1)[0]`: everything before the last dot, or the
whole string when it has no dot. -/
def namePart (s : String) : String :=
  if s.data.contains '.' then
    String.mk (((s.data.reverse.dropWhile (· ≠ '.')).drop 1).reverse)
  else s

/-- The candidate `f'{name_part}_{counter}.md'` tried by the uniqueness
loops. -/
def uniqueCandidate (base : String) (counter : Nat) : String :=
  namePart base ++ "_" ++ toString counter ++ ".md"

/-- The `while (directory / filename).exists()` loop shared by
`_ensure_unique_filename` and `_ensure_unique_filename_in_dir`, totalised by
fuel; `uniqueFuel` attempts always suffice because the candidates are
pairwise distinct paths and at most one per existing path can collide. -/
def ensureUniqueLoop (fs : FS) (dir : List String) (base : String) :
    String → Nat → Nat → String
  | filename, _, 0 => filename
  | filename, counter, fuel + 1 =>
    if pathExists fs (dir ++ [filename]) then
      ensureUniqueLoop fs dir base (uniqueCandidate base counter) (counter + 1) fuel
    else filename

def uniqueFuel (fs : FS) : Nat :=
  fs.notes.length + fs.dirs.length + fs.indexes.length + 1

/-- `_ensure_unique_filename_in_dir`. -/
def ensureUniqueFilenameInDir (fs : FS) (base : String) (dir : List String) : String :=
  ensureUniqueLoop fs dir base base 1 (uniqueFuel fs)

/-- `_ensure_unique_filename` (the top-level-directory variant; its body is
the in-dir loop run at the store root). -/
def ensureUniqueFilename (fs : FS) (base : String) : String :=
  ensureUniqueFilenameInDir fs base []

/-- Strip `.md` from the last component without dropping it when empty
(`_normalize_parent` is plain string surgery, not path resolution). -/
def stripMdLast : List String → List String
  | [] => []
  | [x] => [stripMd x]
  | x :: xs => x :: stripMdLast xs

/-- `_normalize_parent`: remove a trailing `.md` from a parent spec. -/
def normalizeParent : Option (List String) → Option (List String)
  | none => none
  | some p => some (stripMdLast p)

/-- `', '.join(tags) if tags else ''` (both branches agree on `[]`). -/
def tagsStr (tags : List String) : String := String.intercalate ", " tags

/-- The note body format `f'# {title}\nTags: {tags_str}\n\n{content}'`. -/
def noteBody (title : String) (tags : List String) (content : String) : String :=
  "# " ++ title ++ "\nTags: " ++ tagsStr tags ++ "\n\n" ++ content

/-- `_get_directory_for_note`: the components before the basename, the root
for a top-level filename. -/
def dirOfNote (f : List String) : List String :=
  if f.length ≥ 2 then f.dropLast else []

/-- The expected ancestor filename at level `i` of
`_update_parent_counts` (`'/'.join(parent_parts[:i+1]) + '.md'`). -/
def upcExpected (parentParts : List String) (i : Nat) : List String :=
  withMd (parentParts.take (i + 1))

/-- One level of `_update_parent_counts`: find the ancestor's entry in its
directory's index, recompute its counts against the disk state, and resave
that index. -/
def upcLevel (parentParts : List String) (i : Nat) (fs : FS) : FS :=
  let part := parentParts.getD i ""
  let parentDir := parentParts.take i
  let pidx := loadIndex fs parentDir
  match pidx.find? (fun te =>
      decide (te.2.filename = upcExpected parentParts i) ||
      decide (te.2.filename = [part ++ ".md"])) with
  | none => fs
  | some (t, e) =>
    let cc := calcChildrenCount fs e.filename
    let dc := calcDescendantCount fs (descFuel fs) e.filename
    let e' :=
      if cc > 0 then { e with childrenCount := some cc, descendantCount := some dc }
      else { e with childrenCount := none, descendantCount := none }
    saveIndex fs (insertA pidx t e') parentDir

/-- The `for i, part in enumerate(parent_parts)` loop, one `upcLevel` per
ancestor, from the root inward. -/
def upcGo : Nat → List String → Nat → FS → FS
  | 0, _, _, fs => fs
  | rem + 1, parentParts, i, fs => upcGo rem parentParts (i + 1) (upcLevel parentParts i fs)

/-- `_update_parent_counts` (the `count_delta` argument of the source is
unused there; counts are recomputed, not adjusted). -/
def updateParentCounts (fs : FS) (filename : List String) : FS :=
  if filename.length ≥ 2 then
    let parentParts := filename.dropLast
    upcGo parentParts.length parentParts 0 fs
  else fs

/-- The note files directly inside a directory. -/
def immediateChildFiles (fs : FS) (d : List String) : List (List String) :=
  (fs.notes.map Prod.fst).filter
    (fun p => d.isPrefixOf p && decide (p.length = d.length + 1))

/-- The subdirectories directly inside a directory. -/
def immediateSubdirs (fs : FS) (d : List String) : List (List String) :=
  fs.dirs.filter (fun p => d.isPrefixOf p && decide (p.length = d.length + 1))

/-- `_cleanup_empty_directory`: remove a non-root directory that is either
completely empty or contains only an index file whose mapping is empty. -/
def cleanupEmptyDirectory (fs : FS) (d : List String) : FS :=
  if ¬ (d ∈ fs.dirs) ∨ d = [] then fs
  else
    let files := immediateChildFiles fs d
    let subdirs := immediateSubdirs fs d
    let hasIdx := (lookupA fs.indexes d).isSome
    if files.isEmpty ∧ subdirs.isEmpty ∧ hasIdx = false then
      { fs with dirs := fs.dirs.erase d }
    else if files.isEmpty ∧ subdirs.isEmpty ∧ hasIdx = true ∧ loadIndex fs d = [] then
      { fs with indexes := eraseA fs.indexes d, dirs := fs.dirs.erase d }
    else fs

/-- The top-level branch of `add_note` (no parent). -/
def addNoteTop (fs : FS) (title content : String) (tags : List String) (base : String) :
    List String × FS :=
  let fn := ensureUniqueFilename fs base
  let fullFilename := [fn]
  let body := noteBody title tags content
  let fs2 : FS := { fs with notes := insertA fs.notes fullFilename body }
  let idx' := insertA (loadIndex fs2 []) title { filename := fullFilename, tags := tags }
  (fullFilename, saveIndex fs2 idx' [])

/-- `add_note`, returning the full relative filename of the created note
together with the new disk state (the root-including `Path` the Python
function returns is recovered by `addNotePath` below). -/
def addNote (fs : FS) (title content : String) (tags : List String)
    (parent : Option (List String)) : List String × FS :=
  let base := titleToFilename title
  match normalizeParent parent with
  | none => addNoteTop fs title content tags base
  | some pp =>
    if pp = [] then addNoteTop fs title content tags base
    else
      let fs1 : FS := { fs with dirs := mkdirParents fs.dirs pp }
      let fn := ensureUniqueFilenameInDir fs1 base pp
      let fullFilename := pp ++ [fn]
      let body := noteBody title tags content
      let fs2 : FS := { fs1 with notes := insertA fs1.notes fullFilename body }
      let idx' := insertA (loadIndex fs2 pp) title { filename := fullFilename, tags := tags }
      let fs3 := saveIndex fs2 idx' pp
      (fullFilename, updateParentCounts fs3 fullFilename)

/-- `get_note`: the raw file text, `None` when the path does not exist.  (On
a path that exists but is not a note file the Python `open` would raise; no
claim reaches that corner.) -/
def getNote (fs : FS) (p : List String) : Option String :=
  if pathExists fs p then lookupA fs.notes p else none

/-- `delete_note`. -/
def deleteNote (fs : FS) (filename : List String) : Bool × FS :=
  if pathExists fs filename = false then (false, fs)
  else
    let noteDir := dirOfNote filename
    let idx := loadIndex fs noteDir
    let fs1 :=
      match idx.find? (fun te => decide (te.2.filename = filename)) with
      | some te => if te.1 = "" then fs else saveIndex fs (eraseA idx te.1) noteDir
      | none => fs
    let fs2 : FS := { fs1 with notes := eraseA fs1.notes filename }
    let fs3 := if noteDir ≠ [] then updateParentCounts fs2 filename else fs2
    let fs4 := if noteDir ≠ [] then cleanupEmptyDirectory fs3 noteDir else fs3
    (true, fs4)

/-- `sorted(list(set(…)))` on tag strings: Python's sort is lexicographic on
code points, which is exactly `≤` on `String`; the iteration order of the
intermediate `set` is irrelevant because the result is sorted and
duplicate-free either way. -/
def insertSorted (x : String) : List String → List String
  | [] => [x]
  | y :: ys => if pyStrLe x y then x :: y :: ys else y :: insertSorted x ys

def sortStrings : List String → List String
  | [] => []
  | x :: xs => insertSorted x (sortStrings xs)

def pySortedSet (l : List String) : List String :=
  sortStrings l.dedup

/-- `f.readlines()`: split into lines, each keeping its trailing newline,
the last piece kept without one, an empty file giving no lines.  `acc` holds
the current line reversed. -/
def readLinesAux : List Char → List Char → List (List Char)
  | acc, [] => if acc.isEmpty then [] else [acc.reverse]
  | acc, c :: rest =>
    if c = '\n' then (acc.reverse ++ ['\n']) :: readLinesAux [] rest
    else readLinesAux (c :: acc) rest

def readLines (s : String) : List String :=
  (readLinesAux [] s.data).map String.mk

/-- `line.strip() == ''` for a would-be blank line. -/
def stripIsEmpty (s : String) : Bool := s.data.all (fun c => c.isWhitespace)

/-- The `content_start` computation shared by `add_tags` and `remove_tags`:
skip the title line, a `Tags: ` second line, and one following blank line. -/
def tagContentStart (lines : List String) : Nat :=
  if decide (lines.length > 1) && strStartsWith (lines.getD 1 "") "Tags: " then
    if decide (lines.length > 2) && stripIsEmpty (lines.getD 2 "") then 3 else 2
  else 1

/-- The body of `add_tags` and `remove_tags` after the new tag list has been
computed: re-splice the note file around the standard header and persist the
tags to both the file and the index entry. -/
def spliceTags (fs : FS) (filename : List String) (noteDir : List String)
    (idx : NoteIndex) (title : String) (e : Entry) (updatedTags : List String) :
    Bool × FS :=
  let fileText := (lookupA fs.notes filename).getD ""
  let lines := readLines fileText
  let content := String.join (lines.drop (tagContentStart lines))
  let newText := "# " ++ title ++ "\nTags: " ++ tagsStr updatedTags ++ "\n\n" ++ content
  let fs1 : FS := { fs with notes := insertA fs.notes filename newText }
  let fs2 := saveIndex fs1 (insertA idx title { e with tags := updatedTags }) noteDir
  (true, fs2)

/-- `add_tags`: union with the existing tags, de-duplicated and sorted. -/
def addTags (fs : FS) (filename : List String) (tagsToAdd : List String) : Bool × FS :=
  if pathExists fs filename = false then (false, fs)
  else
    let noteDir := dirOfNote filename
    let idx := loadIndex fs noteDir
    match idx.find? (fun te => decide (te.2.filename = filename)) with
    | none => (false, fs)
    | some te =>
      if te.1 = "" then (false, fs)
      else spliceTags fs filename noteDir idx te.1 te.2
        (pySortedSet (te.2.tags ++ tagsToAdd))

/-- `remove_tags`: drop the listed tags, preserving the original order. -/
def removeTags (fs : FS) (filename : List String) (tagsToRemove : List String) :
    Bool × FS :=
  if pathExists fs filename = false then (false, fs)
  else
    let noteDir := dirOfNote filename
    let idx := loadIndex fs noteDir
    match idx.find? (fun te => decide (te.2.filename = filename)) with
    | none => (false, fs)
    | some te =>
      if te.1 = "" then (false, fs)
      else spliceTags fs filename noteDir idx te.1 te.2
        (te.2.tags.filter (fun tg => decide (tg ∉ tagsToRemove)))

/-- A relative path rendered as the '/'-joined string the source stores in
index records and note bodies. -/
def strOfPath (p : List String) : String := String.intercalate "/" p

/-- Python's `pat in s` for a nonempty pattern. -/
def hasSubstr (s pat : String) : Bool := containsSub s.data pat.data

/-- `_update_note_references`: for every note file except the moved note's
new location, replace every occurrence of the old full filename with the new
one; files without an occurrence are rewritten verbatim (skipped). -/
def updateNoteReferences (fs : FS) (oldF newF : List String) : FS :=
  let oldS := strOfPath oldF
  let newS := strOfPath newF
  { fs with notes := fs.notes.map (fun pc =>
      if pc.1 = newF then pc
      else if hasSubstr pc.2 oldS then (pc.1, strReplace pc.2 oldS newS) else pc) }

/-- The normalisation `move_note` applies to `target_folder`: strip a
trailing `.md`; an empty result is falsy in Python and behaves as "root". -/
def moveTargetNorm (targetFolder : Option (List String)) : Option (List String) :=
  match normalizeParent targetFolder with
  | none => none
  | some p => if p = [] then none else some p

/-- The content extraction inside `move_note` (note: `split('\n')`, unlike
the `readlines`-based splice of the tag operations, and an exact `== ''`
test on the third line). -/
def moveExtractContent (sourceContent : String) : String :=
  let lines := strSplitNl sourceContent
  if strStartsWith (lines.getD 0 "") "# " then
    let cs :=
      if decide (lines.length > 1) && strStartsWith (lines.getD 1 "") "Tags: " then
        if decide (lines.length > 2) && decide (lines.getD 2 "" = "") then 3 else 2
      else 1
    String.intercalate "\n" (lines.drop cs)
  else sourceContent

/-- The non-no-op tail of `move_note`: write the note at its new location,
upsert the target index, resave the source index without the entry, delete
the old file, refresh ancestor counts on both sides, clean up the source
directory, and rewrite references. -/
def moveNoteDo (fs : FS) (filename : List String) (sourceContent : String)
    (sourceDir : List String) (sourceIdx : NoteIndex) (sourceTitle : String)
    (sourceTags : List String) (tf : Option (List String)) (base : String) :
    Option (List String × FS) :=
  let step := match tf with
    | some p =>
      let fsA : FS := { fs with dirs := mkdirParents fs.dirs p }
      (p ++ [ensureUniqueFilenameInDir fsA base p], fsA)
    | none => ([ensureUniqueFilename fs base], fs)
  let newFull := step.1
  let fs1 := step.2
  let newText := noteBody sourceTitle sourceTags (moveExtractContent sourceContent)
  let fs2 : FS := { fs1 with notes := insertA fs1.notes newFull newText }
  let tDir := match tf with | some p => p | none => []
  let tIdx' := insertA (loadIndex fs2 tDir) sourceTitle
    { filename := newFull, tags := sourceTags }
  let fs3 := saveIndex fs2 tIdx' tDir
  let fs4 := saveIndex fs3 (eraseA sourceIdx sourceTitle) sourceDir
  let fs5 : FS := { fs4 with notes := eraseA fs4.notes filename }
  let fs6 := if sourceDir ≠ [] then updateParentCounts fs5 filename else fs5
  let fs7 := match tf with | some _ => updateParentCounts fs6 newFull | none => fs6
  let fs8 := if sourceDir ≠ [] then cleanupEmptyDirectory fs7 sourceDir else fs7
  some (newFull, updateNoteReferences fs8 filename newFull)

/-- `move_note`; `none` models the `ValueError` paths (missing source file,
unreadable source, missing or falsy index metadata). -/
def moveNote (fs : FS) (filename : List String) (targetFolder : Option (List String)) :
    Option (List String × FS) :=
  if pathExists fs filename = false then none
  else
    match getNote fs filename with
    | none => none
    | some sourceContent =>
      let sourceDir := dirOfNote filename
      let sourceIdx := loadIndex fs sourceDir
      match sourceIdx.find? (fun te => decide (te.2.filename = filename)) with
      | none => none
      | some te =>
        if te.1 = "" then none
        else
          let tf := moveTargetNorm targetFolder
          let base := titleToFilename te.1
          let potential := match tf with
            | some p => p ++ [base]
            | none => [base]
          if filename = potential then some (filename, fs)
          else moveNoteDo fs filename sourceContent sourceDir sourceIdx te.1 te.2.tags tf base

/-- A caller-side path: `pathlib` paths are absolute or relative; the store
root (`Storage.directory`) is one of these. -/
structure RootPath where
  absolute : Bool
  comps : List String
deriving Repr, DecidableEq

/-- `pathlib`'s `/`: an absolute right operand discards the left one. -/
def joinPath (a b : RootPath) : RootPath :=
  if b.absolute then b else ⟨a.absolute, a.comps ++ b.comps⟩

/-- Boolean list-prefix test on path components. -/
def isPfx : List String → List String → Bool
  | [], _ => true
  | _ :: _, [] => false
  | a :: as, b :: bs => decide (a = b) && isPfx as bs

/-- Resolve a caller-supplied path against the store root, as
`self.directory / filename` does, back to a root-relative path.  The model
covers exactly the subtree under the root; a join landing outside it hits no
file the store ever creates. -/
def resolveRel (root : RootPath) (p : RootPath) : Option (List String) :=
  let j := joinPath root p
  if decide (j.absolute = root.absolute) && isPfx root.comps j.comps then
    some (j.comps.drop root.comps.length)
  else none

/-- `add_note` as called through a `Storage` rooted at `root`: the Python
function returns `note_path`, i.e. the root joined with the relative
filename. -/
def addNotePath (root : RootPath) (fs : FS) (title content : String)
    (tags : List String) (parent : Option (List String)) : RootPath × FS :=
  let r := addNote fs title content tags parent
  (joinPath root ⟨false, r.1⟩, r.2)

/-- `get_note` as called through a `Storage` rooted at `root` on an
arbitrary caller path. -/
def getNotePath (root : RootPath) (fs : FS) (p : RootPath) : Option String :=
  match resolveRel root p with
  | some rel => getNote fs rel
  | none => none

/-- Follows the spec's words (§3): `descendant_count` is the "total notes in
the entire subtree rooted at that child directory" — the number of note
files strictly below the note's same-named directory.  Stated against the
file list so it is independent of the index walk the code performs. -/
def specDescendantCount (fs : FS) (noteFilename : List String) : Nat :=
  let d := stripMdPath noteFilename
  ((fs.notes.map Prod.fst).filter
    (fun p => d.isPrefixOf p && decide (d.length < p.length))).length

/-! Concrete stores used by the claim theorems. -/

/-- The four-level store grandparent.md → grandparent/parent.md →
grandparent/parent/child.md → grandparent/parent/child/baby.md, built by four
`add_note` calls. -/
def c1Chain : FS :=
  (addNote (addNote (addNote (addNote FS.empty "Grandparent" "GP content" ["gp"] none).2
    "Parent" "P content" ["p"] (some ["grandparent"])).2
    "Child" "C content" ["c"] (some ["grandparent", "parent"])).2
    "Baby" "B content" ["b"] (some ["grandparent", "parent", "child"])).2

/-- Two notes titled "X" added at the root: files `x.md` and `x_1.md`, the
root index mapping "X" to `x_1.md` (title collisions overwrite). -/
def c2Pre : FS := (addNote (addNote FS.empty "X" "a" [] none).2 "X" "b" [] none).2

/-- The store of `c2_noop_witness`: a single root note `task.md`. -/
def c2W : FS := (addNote FS.empty "Task" "Task content" ["task"] none).2

/-- A store rooted at the relative path `notes`. -/
def c3RelRoot : RootPath := ⟨false, ["notes"]⟩

/-- The result of `add_note('My Note', 'hello', ['t1', 't2'])` on that
store. -/
def c3Rel : RootPath × FS := addNotePath c3RelRoot FS.empty "My Note" "hello" ["t1", "t2"] none

/-- An on-disk store with `parent_note.md` plus its only child
`parent_note/child_note.md`, for arbitrary contents and tags (the shape
`add_note` produces for this pair). -/
def c8One (cp cc : String) (tp tc : List String) : FS :=
  ⟨[(["parent_note.md"], cp), (["parent_note", "child_note.md"], cc)],
   [([], [("Parent Note",
           { filename := ["parent_note.md"], tags := tp,
             childrenCount := some 1, descendantCount := some 1 })]),
    (["parent_note"],
     [("Child Note",
       { filename := ["parent_note", "child_note.md"], tags := tc })])],
   [["parent_note"]]⟩

/-- The same store with a second child `parent_note/child_two.md`. -/
def c8Two (cp c1 c2 : String) (tp t1 t2 : List String) : FS :=
  ⟨[(["parent_note.md"], cp), (["parent_note", "child_note.md"], c1),
    (["parent_note", "child_two.md"], c2)],
   [([], [("Parent Note",
           { filename := ["parent_note.md"], tags := tp,
             childrenCount := some 2, descendantCount := some 2 })]),
    (["parent_note"],
     [("Child Note",
       { filename := ["parent_note", "child_note.md"], tags := t1 }),
      ("Child Two",
       { filename := ["parent_note", "child_two.md"], tags := t2 })])],
   [["parent_note"]]⟩

/-- Two notes titled "Duplicate": after the second add the root index maps
"Duplicate" to `duplicate_1.md` only, so `duplicate.md` is an on-disk file
with no index entry. -/
def c9W : FS :=
  (addNote (addNote FS.empty "Duplicate" "a" [] none).2 "Duplicate" "b" [] none).2

/-- An on-disk store holding one note `test_note.md` titled "Test Note" with
tags `a, b` and arbitrary content `c` after the standard header. -/
def c7Store (c : String) : FS :=
  ⟨[(["test_note.md"], "# Test Note\nTags: a, b\n\n" ++ c)],
   [([], [("Test Note", { filename := ["test_note.md"], tags := ["a", "b"] })])], []⟩

/-- A store with three root notes: `main.md` mentioning `task.md`,
`other.md` not mentioning it, and `task.md` itself. -/
def c4Store : FS :=
  ⟨[(["main.md"], "See also task.md for details"), (["other.md"], "no references here"),
    (["task.md"], "# Task\nTags: task\n\nTask content")],
   [([], [("Main", { filename := ["main.md"], tags := ["main"] }),
          ("Other", { filename := ["other.md"], tags := ["other"] }),
          ("Task", { filename := ["task.md"], tags := ["task"] })])], []⟩

/-! Helper lemmas shared by the claim theorems. -/

theorem saveIndex_notes (fs : FS) (idx : NoteIndex) (d : List String) :
    (saveIndex fs idx d).notes = fs.notes := rfl

theorem upcLevel_notes (pp : List String) (i : Nat) (fs : FS) :
    (upcLevel pp i fs).notes = fs.notes := by
  unfold upcLevel
  dsimp only
  split <;> rfl

theorem upcGo_notes (rem : Nat) (pp : List String) (i : Nat) (fs : FS) :
    (upcGo rem pp i fs).notes = fs.notes := by
  induction rem generalizing i fs with
  | zero => rfl
  | succ n ih => rw [upcGo, ih, upcLevel_notes]

theorem updateParentCounts_notes (fs : FS) (filename : List String) :
    (updateParentCounts fs filename).notes = fs.notes := by
  unfold updateParentCounts
  split
  · exact upcGo_notes _ _ _ _
  · rfl

theorem cleanupEmptyDirectory_notes (fs : FS) (d : List String) :
    (cleanupEmptyDirectory fs d).notes = fs.notes := by
  unfold cleanupEmptyDirectory
  split
  · rfl
  · dsimp only
    split
    · rfl
    · split <;> rfl

theorem lookupA_eq_none_of_not_mem {β : Type} (l : List (List String × β))
    (k : List String) (h : k ∉ l.map Prod.fst) : lookupA l k = none := by
  induction l with
  | nil => rfl
  | cons p t ih =>
    simp only [List.map_cons, List.mem_cons] at h
    push_neg at h
    rw [lookupA]
    rw [if_neg (by exact fun he => h.1 he.symm)]
    exact ih h.2

theorem lookupA_eraseA_self {β : Type} (l : List (List String × β)) (k : List String)
    (h : (l.map Prod.fst).Nodup) : lookupA (eraseA l k) k = none := by
  induction l with
  | nil => rfl
  | cons p t ih =>
    obtain ⟨k', v⟩ := p
    rw [List.map_cons, List.nodup_cons] at h
    by_cases hk : k' = k
    · rw [eraseA, if_pos hk]
      exact lookupA_eq_none_of_not_mem t k (hk ▸ h.1)
    · rw [eraseA, if_neg hk, lookupA, if_neg hk]
      exact ih h.2

theorem isPfx_append (l m : List String) : isPfx l (l ++ m) = true := by
  induction l with
  | nil => rfl
  | cons a t ih => simp [isPfx, ih]

theorem lookupA_insertA_self {α β : Type} [DecidableEq α] (l : List (α × β)) (k : α) (v : β) :
    lookupA (insertA l k v) k = some v := by
  induction l with
  | nil => simp [insertA, lookupA]
  | cons p t ih =>
    obtain ⟨k', v'⟩ := p
    by_cases h : k' = k
    · rw [insertA, if_pos h, lookupA, if_pos rfl]
    · rw [insertA, if_neg h, lookupA, if_neg h]
      exact ih

theorem addNote_ret_notes (fs : FS) (title content : String) (tags : List String)
    (parent : Option (List String)) :
    (addNote fs title content tags parent).2.notes =
      insertA fs.notes (addNote fs title content tags parent).1
        (noteBody title tags content) := by
  unfold addNote
  cases hp : normalizeParent parent with
  | none => rfl
  | some pp =>
    by_cases he : pp = []
    · simp only [he, if_pos rfl]
      rfl
    · simp only [if_neg he]
      rw [updateParentCounts_notes]
      rfl

/-! Claim C1: the count invariant. -/

/-- C1: the claimed count invariant — `descendant_count` equals the number of
entries of the child directory's index plus the sum of the children's
descendant counts, recursively to any depth — is violated by the code on a
reachable four-level store: `grandparent.md` has three notes below its
directory (and `grandparent/parent.md` two), yet the stored
`descendant-count`s are 2 and 1: `_calculate_descendant_count` rebuilds
grandchild paths with `split('/', 1)[1]` and so never finds descendants
nested three or more levels below the note. -/
theorem c1_descendant_count_diverges :
    lookupA c1Chain.indexes [] =
      some [("Grandparent",
        { filename := ["grandparent.md"], tags := ["gp"],
          childrenCount := some 1, descendantCount := some 2 })] ∧
    lookupA c1Chain.indexes ["grandparent"] =
      some [("Parent",
        { filename := ["grandparent", "parent.md"], tags := ["p"],
          childrenCount := some 1, descendantCount := some 1 })] ∧
    specDescendantCount c1Chain ["grandparent.md"] = 3 ∧
    specDescendantCount c1Chain ["grandparent", "parent.md"] = 2 :=
  ⟨rfl, rfl, rfl, rfl⟩

/-! Claim C2: moving a note to its current folder. -/

/-- C2 (counterexample): `move_note` on `x_1.md` with its own current folder
(the root) as target is not a no-op — the no-op test compares against
`slugify(title)`, which is `x.md`, not the note's actual filename — so the
note is renamed to `x_2.md` and files are rewritten. -/
theorem c2_move_same_folder_not_noop :
    (moveNote c2Pre ["x_1.md"] none).map Prod.fst = some ["x_2.md"] ∧
    (moveNote c2Pre ["x_1.md"] none).map (fun r => r.2.notes.map Prod.fst) =
      some [["x.md"], ["x_2.md"]] ∧
    moveNote c2Pre ["x_1.md"] none ≠ some (["x_1.md"], c2Pre) := by
  refine ⟨rfl, rfl, ?_⟩
  decide

/-- C2 (amended): moving a note whose filename equals `slugify(title)` placed
in the target folder — i.e. the computed destination of the move equals the
current filename — is a no-op: the same filename is returned and the disk
state is untouched.  (The folders being equal is not sufficient, as
`c2_move_same_folder_not_noop` shows: the comparison uses the slug of the
title, not the note's actual basename.) -/
theorem c2_noop_when_destination_equals_filename (fs : FS) (filename : List String)
    (target : Option (List String)) (t : String) (e : Entry) (c : String)
    (hnote : lookupA fs.notes filename = some c)
    (hfind : (loadIndex fs (dirOfNote filename)).find?
        (fun te => decide (te.2.filename = filename)) = some (t, e))
    (ht : t ≠ "")
    (hpot : filename = (match moveTargetNorm target with
      | some p => p ++ [titleToFilename t]
      | none => [titleToFilename t])) :
    moveNote fs filename target = some (filename, fs) := by
  have hex : pathExists fs filename = true := by
    simp [pathExists, hnote]
  unfold moveNote
  rw [hex]
  simp only [Bool.true_eq_false, if_false, getNote, hex, if_true, hnote, hfind, if_neg ht]
  rw [if_pos hpot]

/-- C2 (witness): on a store with a single note `task.md` titled "Task",
moving it to the root really is a no-op. -/
theorem c2_noop_witness :
    moveNote c2W ["task.md"] none = some (["task.md"], c2W) :=
  c2_noop_when_destination_equals_filename c2W ["task.md"] none "Task"
    { filename := ["task.md"], tags := ["task"] }
    "# Task\nTags: task\n\nTask content" rfl rfl (by decide) rfl

/-! Claim C3: the add/get round trip. -/

/-- C3 (counterexample): for a store rooted at the relative path `notes`,
`get_note` applied to the exact path `add_note` returned yields `None`, not
the formatted note: the returned path already contains the root, and
`self.directory / filename` prefixes the root again (`notes/notes/…`).  The
note itself is present with exactly the claimed content under its
root-relative filename. -/
theorem c3_roundtrip_fails_on_returned_path :
    getNotePath c3RelRoot c3Rel.2 c3Rel.1 = none ∧
    getNote c3Rel.2 ["my_note.md"] = some "# My Note\nTags: t1, t2\n\nhello" :=
  ⟨rfl, rfl⟩

/-- C3 (amended): when the store root is an absolute path (`pathlib` then
collapses the double-rooted join back onto the note's path), `get_note` on
the path returned by `add_note` yields exactly
`'# {title}\nTags: {", ".join(tags)}\n\n{content}'`, for every prior store
state, title, content, tag list and parent. -/
theorem c3_roundtrip_on_absolute_root (root : RootPath) (fs : FS) (title content : String)
    (tags : List String) (parent : Option (List String)) (habs : root.absolute = true) :
    getNotePath root (addNotePath root fs title content tags parent).2
      (addNotePath root fs title content tags parent).1 =
    some ("# " ++ title ++ "\nTags: " ++ String.intercalate ", " tags ++ "\n\n" ++ content) := by
  unfold addNotePath getNotePath
  dsimp only
  have hres : resolveRel root
      (joinPath root ⟨false, (addNote fs title content tags parent).1⟩) =
      some (addNote fs title content tags parent).1 := by
    simp [resolveRel, joinPath, habs, isPfx_append]
  rw [hres]
  show getNote (addNote fs title content tags parent).2
    (addNote fs title content tags parent).1 = _
  unfold getNote
  have hex : pathExists (addNote fs title content tags parent).2
      (addNote fs title content tags parent).1 = true := by
    unfold pathExists
    rw [addNote_ret_notes, lookupA_insertA_self]
    simp
  rw [hex, if_pos rfl, addNote_ret_notes, lookupA_insertA_self]
  simp [noteBody, tagsStr]

/-- C3 (witness): the round trip through the returned path on a store rooted
at the absolute path `/store`. -/
theorem c3_roundtrip_witness :
    getNotePath ⟨true, ["store"]⟩
      (addNotePath ⟨true, ["store"]⟩ FS.empty "My Note" "hello" ["t1", "t2"] none).2
      (addNotePath ⟨true, ["store"]⟩ FS.empty "My Note" "hello" ["t1", "t2"] none).1 =
    some ("# " ++ "My Note" ++ "\nTags: " ++ String.intercalate ", " ["t1", "t2"] ++ "\n\n" ++ "hello") :=
  c3_roundtrip_on_absolute_root ⟨true, ["store"]⟩ FS.empty "My Note" "hello"
    ["t1", "t2"] none rfl

/-! Claim C5: the value `add_note` returns. -/

/-- C5 (counterexample): on a store rooted at the absolute path `/store`,
`add_note('Child', …, parent='parent')` does not return the full relative
path `parent/child.md`: it returns `note_path`, which includes the store
root (`/store/parent/child.md`). -/
theorem c5_addNote_returns_rooted_path :
    (addNotePath ⟨true, ["store"]⟩ FS.empty "Child" "c" [] (some ["parent"])).1 ≠
      ⟨false, ["parent", "child.md"]⟩ ∧
    (addNotePath ⟨true, ["store"]⟩ FS.empty "Child" "c" [] (some ["parent"])).1 =
      ⟨true, ["store", "parent", "child.md"]⟩ := by
  constructor
  · decide
  · rfl

/-- C5 (amended): `add_note` returns the store root joined with the created
note's full relative path — for a child note, `root / 'parent/child.md'` —
rather than the bare relative path; the relative part of the result is the
full relative filename (`parent/child.md`, not just the basename). -/
theorem c5_addNote_return_is_root_join (root : RootPath) (content : String)
    (tags : List String) :
    (addNotePath root FS.empty "Child" content tags (some ["parent"])).1 =
      joinPath root ⟨false, ["parent", "child.md"]⟩ ∧
    (addNote FS.empty "Child" content tags (some ["parent"])).1 = ["parent", "child.md"] :=
  ⟨rfl, rfl⟩

/-! Claim C6: numeric suffixes for colliding titles. -/

/-- C6: three notes titled "Duplicate" added to the root of an empty store
receive the filenames `duplicate.md`, `duplicate_1.md`, `duplicate_2.md`
(for arbitrary contents and tags); and after `duplicate_1.md` is deleted
(leaving `duplicate.md` and `duplicate_2.md`), the next "Duplicate" takes
the smallest unused suffix, `duplicate_1.md`, again. -/
theorem c6_duplicate_titles_numeric_suffixes (c1 c2 c3 : String) (tg : List String) :
    (addNote FS.empty "Duplicate" c1 tg none).1 = ["duplicate.md"] ∧
    (addNote (addNote FS.empty "Duplicate" c1 tg none).2 "Duplicate" c2 tg none).1 =
      ["duplicate_1.md"] ∧
    (addNote (addNote (addNote FS.empty "Duplicate" c1 tg none).2 "Duplicate" c2 tg none).2
      "Duplicate" c3 tg none).1 = ["duplicate_2.md"] ∧
    (addNote (deleteNote (addNote (addNote (addNote FS.empty "Duplicate" "a" [] none).2
      "Duplicate" "b" [] none).2 "Duplicate" "c" [] none).2 ["duplicate_1.md"]).2
      "Duplicate" "d" [] none).1 = ["duplicate_1.md"] :=
  ⟨rfl, rfl, rfl, rfl⟩

/-! Claim C8: directory cleanup on deletion. -/

/-- C8: for arbitrary contents and tags, deleting the only note of the
non-root subdirectory `parent_note` removes that subdirectory from disk —
its index file is deleted and the directory is gone (and the parent's count
fields are dropped) — while deleting one of two children leaves the
directory and its index file in place. -/
theorem c8_cleanup_on_last_delete (cp cc c2 : String) (tp tc t2 : List String) :
    (deleteNote (c8One cp cc tp tc) ["parent_note", "child_note.md"]).1 = true ∧
    (deleteNote (c8One cp cc tp tc) ["parent_note", "child_note.md"]).2.dirs = [] ∧
    lookupA (deleteNote (c8One cp cc tp tc) ["parent_note", "child_note.md"]).2.indexes
      ["parent_note"] = none ∧
    lookupA (deleteNote (c8One cp cc tp tc) ["parent_note", "child_note.md"]).2.notes
      ["parent_note", "child_note.md"] = none ∧
    lookupA (deleteNote (c8One cp cc tp tc) ["parent_note", "child_note.md"]).2.indexes [] =
      some [("Parent Note", { filename := ["parent_note.md"], tags := tp })] ∧
    (deleteNote (c8Two cp cc c2 tp tc t2) ["parent_note", "child_note.md"]).1 = true ∧
    (deleteNote (c8Two cp cc c2 tp tc t2) ["parent_note", "child_note.md"]).2.dirs =
      [["parent_note"]] ∧
    lookupA (deleteNote (c8Two cp cc c2 tp tc t2)
        ["parent_note", "child_note.md"]).2.indexes ["parent_note"] =
      some [("Child Two", { filename := ["parent_note", "child_two.md"], tags := t2 })] :=
  ⟨rfl, rfl, rfl, rfl, rfl, rfl, rfl, rfl⟩

/-! Claim C9: deletion tolerates a missing index entry. -/

/-- C9: when the note file exists but the owning directory's index has no
entry whose filename matches, `delete_note` still deletes the file and
returns true; the missing entry is tolerated, not a failure. -/
theorem c9_delete_tolerates_missing_index_entry (fs : FS) (filename : List String)
    (c : String)
    (hnodup : (fs.notes.map Prod.fst).Nodup)
    (hfile : lookupA fs.notes filename = some c)
    (hmiss : (loadIndex fs (dirOfNote filename)).find?
        (fun te => decide (te.2.filename = filename)) = none) :
    (deleteNote fs filename).1 = true ∧
    lookupA (deleteNote fs filename).2.notes filename = none := by
  have hex : pathExists fs filename = true := by simp [pathExists, hfile]
  unfold deleteNote
  rw [hex]
  simp only [Bool.true_eq_false, if_false, hmiss]
  refine ⟨by trivial, ?_⟩
  by_cases hd : dirOfNote filename = []
  · simp only [hd, ne_eq, not_true_eq_false, if_false]
    exact lookupA_eraseA_self fs.notes filename hnodup
  · simp only [ne_eq, hd, not_false_eq_true, if_true]
    rw [cleanupEmptyDirectory_notes, updateParentCounts_notes]
    exact lookupA_eraseA_self fs.notes filename hnodup

/-- C9 (witness): deleting the orphaned `duplicate.md` succeeds and removes
the file. -/
theorem c9_delete_orphan_witness :
    (deleteNote c9W ["duplicate.md"]).1 = true ∧
    lookupA (deleteNote c9W ["duplicate.md"]).2.notes ["duplicate.md"] = none :=
  c9_delete_tolerates_missing_index_entry c9W ["duplicate.md"]
    "# Duplicate\nTags: \n\na" (by decide) rfl rfl

/-! Claim C10: all-symbol titles slugify to the bare filename `.md`. -/

theorem collapseU_all_underscore (l : List Char) (h : ∀ x ∈ l, x = '_') :
    ∀ x ∈ collapseU l, x = '_' := by
  induction l with
  | nil => intro x hx; cases hx
  | cons c t ih =>
    cases t with
    | nil =>
      intro x hx
      rw [collapseU, List.mem_singleton] at hx
      exact hx ▸ h c (by simp)
    | cons c2 t2 =>
      intro x hx
      rw [collapseU] at hx
      have ht : ∀ y ∈ c2 :: t2, y = '_' := fun y hy => h y (List.mem_cons_of_mem _ hy)
      split at hx
      · exact ih ht x hx
      · rcases List.mem_cons.mp hx with hx | hx
        · exact hx ▸ h c (by simp)
        · exact ih ht x hx

theorem stripU_all_underscore (l : List Char) (h : ∀ x ∈ l, x = '_') :
    stripU l = [] := by
  have hd : l.dropWhile (fun x => x = '_') = [] := by
    rw [List.dropWhile_eq_nil_iff]
    intro x hx
    simp [h x hx]
  unfold stripU
  rw [hd]
  rfl

theorem titleToFilename_lowered_all_symbols (title : String)
    (h : ∀ ch ∈ (strToLower title).data, isAsciiAlnum ch = false) :
    titleToFilename title = ".md" := by
  unfold titleToFilename
  have hall : ∀ x ∈ (strToLower title).data.map
      (fun c => if isAsciiAlnum c then c else '_'), x = '_' := by
    intro x hx
    rw [List.mem_map] at hx
    obtain ⟨c, hc, rfl⟩ := hx
    rw [if_neg (by simp [h c hc])]
  dsimp only
  rw [stripU_all_underscore _ (collapseU_all_underscore _ hall)]
  rfl

/-- C10 (counterexample): the claim fails on the title `"\u212A"` (KELVIN
SIGN): it contains no ASCII letters or digits, yet Python's full-Unicode
`lower()` turns it into the ASCII letter `k` before the slug regex runs, so
`_title_to_filename` yields `k.md` — not the bare `.md` — and `add_note`
creates `k.md`. -/
theorem c10_kelvin_sign_counterexample :
    (∀ ch ∈ "\u212A".data, isAsciiAlnum ch = false) ∧
    titleToFilename "\u212A" = "k.md" ∧
    titleToFilename "\u212A" ≠ ".md" ∧
    (addNote FS.empty "\u212A" "body" ["t"] none).1 = ["k.md"] := by
  refine ⟨by decide, rfl, by decide, rfl⟩

/-- C10 (amended): a title whose Python-lowercased form contains no ASCII
letters or digits — in particular every all-symbol ASCII title, but not
`"\u212A"` or `"\u0130"`, whose lowercase introduces one — slugifies to the
bare filename `.md` with an empty stem, and `add_note` on an empty store
accepts it, creating a file literally named `.md` holding the formatted
note, with no rejection and no placeholder stem. -/
theorem c10_lowered_all_symbol_title_yields_bare_md (title content : String)
    (tags : List String)
    (h : ∀ ch ∈ (strToLower title).data, isAsciiAlnum ch = false) :
    titleToFilename title = ".md" ∧
    (addNote FS.empty title content tags none).1 = [".md"] ∧
    lookupA (addNote FS.empty title content tags none).2.notes [".md"] =
      some ("# " ++ title ++ "\nTags: " ++ String.intercalate ", " tags ++ "\n\n" ++ content) := by
  have hslug := titleToFilename_lowered_all_symbols title h
  refine ⟨hslug, ?_, ?_⟩
  · simp [addNote, normalizeParent, addNoteTop, hslug, ensureUniqueFilename,
      ensureUniqueFilenameInDir, ensureUniqueLoop, uniqueFuel, pathExists,
      lookupA, FS.empty]
  · simp [addNote, normalizeParent, addNoteTop, hslug, ensureUniqueFilename,
      ensureUniqueFilenameInDir, ensureUniqueLoop, uniqueFuel, pathExists,
      lookupA, insertA, saveIndex, FS.empty, noteBody, tagsStr]

/-- C10 (witness): the all-punctuation title `!!!`, whose lowercase is
itself. -/
theorem c10_witness :
    titleToFilename "!!!" = ".md" ∧
    (addNote FS.empty "!!!" "body" ["t"] none).1 = [".md"] ∧
    lookupA (addNote FS.empty "!!!" "body" ["t"] none).2.notes [".md"] =
      some ("# " ++ "!!!" ++ "\nTags: " ++ String.intercalate ", " ["t"] ++ "\n\n" ++ "body") :=
  c10_lowered_all_symbol_title_yields_bare_md "!!!" "body" ["t"] (by decide)

/-! Claim C7: tag addition and removal. -/

theorem readLinesAux_append (a : List Char) (acc b : List Char) (h : '\n' ∉ a) :
    readLinesAux acc (a ++ '\n' :: b) = ((acc.reverse ++ a) ++ ['\n']) :: readLinesAux [] b := by
  induction a generalizing acc with
  | nil => simp [readLinesAux]
  | cons x xs ih =>
    rw [List.cons_append, readLinesAux]
    rw [List.mem_cons] at h
    push_neg at h
    rw [if_neg (fun hx => h.1 hx.symm)]
    rw [ih _ h.2]
    simp

theorem readLines_line (s t : String) (h : '\n' ∉ s.data) :
    readLines (s ++ "\n" ++ t) = (s ++ "\n") :: readLines t := by
  unfold readLines
  have hd : (s ++ "\n" ++ t).data = s.data ++ '\n' :: t.data := by
    simp [String.data_append]
  rw [hd, readLinesAux_append s.data [] t.data h]
  simp only [List.reverse_nil, List.nil_append, List.map_cons]
  congr 1

theorem readLinesAux_flatten (l acc : List Char) :
    (readLinesAux acc l).flatten = acc.reverse ++ l := by
  induction l generalizing acc with
  | nil =>
    rw [readLinesAux]
    by_cases h : acc.isEmpty
    · rw [if_pos h]
      simp [List.isEmpty_iff.mp h]
    · rw [if_neg h]
      simp
  | cons x xs ih =>
    rw [readLinesAux]
    by_cases h : x = '\n'
    · rw [if_pos h, List.flatten, ih]
      simp [h]
    · rw [if_neg h, ih]
      simp

theorem strJoin_foldl (ls : List (List Char)) (a : List Char) :
    List.foldl (· ++ ·) (String.mk a) (ls.map String.mk) = String.mk (a ++ ls.flatten) := by
  induction ls generalizing a with
  | nil => simp
  | cons x xs ih =>
    rw [List.map_cons, List.foldl_cons]
    have hx : (String.mk a ++ String.mk x) = String.mk (a ++ x) := rfl
    rw [hx, ih]
    simp

theorem join_readLines (s : String) : String.join (readLines s) = s := by
  unfold readLines String.join
  have h0 : ("" : String) = String.mk [] := rfl
  rw [h0, strJoin_foldl, readLinesAux_flatten]
  simp

theorem tagContentStart_standard (l1 l2 l3 : String) (r : List String)
    (h2 : strStartsWith l2 "Tags: " = true) (h3 : stripIsEmpty l3 = true) :
    tagContentStart (l1 :: l2 :: l3 :: r) = 3 := by
  unfold tagContentStart
  simp [List.getD, h2, h3]

theorem c7_lines (c : String) :
    readLines ("# Test Note\nTags: a, b\n\n" ++ c) =
      "# Test Note\n" :: "Tags: a, b\n" :: "\n" :: readLines c := by
  have e : "# Test Note\nTags: a, b\n\n" ++ c =
      "# Test Note" ++ "\n" ++ ("Tags: a, b" ++ "\n" ++ ("" ++ "\n" ++ c)) := by
    apply String.ext
    simp [String.data_append]
  rw [e, readLines_line _ _ (by decide), readLines_line _ _ (by decide),
    readLines_line _ _ (by decide)]
  rfl

theorem c7_lines2 (c : String) :
    readLines ("# Test Note\nTags: a, b, c\n\n" ++ c) =
      "# Test Note\n" :: "Tags: a, b, c\n" :: "\n" :: readLines c := by
  have e : "# Test Note\nTags: a, b, c\n\n" ++ c =
      "# Test Note" ++ "\n" ++ ("Tags: a, b, c" ++ "\n" ++ ("" ++ "\n" ++ c)) := by
    apply String.ext
    simp [String.data_append]
  rw [e, readLines_line _ _ (by decide), readLines_line _ _ (by decide),
    readLines_line _ _ (by decide)]
  rfl

/-- C7: on a note with tags `[a, b]` and arbitrary content `c`, `add_tags`
with `[b, c]` sets the tags to the de-duplicated union sorted ascending —
`[a, b, c]` — in both the note file header and the index entry, leaving the
content untouched; `remove_tags` with `[a]` then sets them to the original
order with the removed tags filtered out — `[b, c]`, not re-sorted —
again in both the file header and the index entry. -/
theorem c7_tags_union_sorted_removal_ordered (c : String) :
    (addTags (c7Store c) ["test_note.md"] ["b", "c"]).1 = true ∧
    lookupA (addTags (c7Store c) ["test_note.md"] ["b", "c"]).2.notes ["test_note.md"] =
      some ("# Test Note\nTags: a, b, c\n\n" ++ c) ∧
    lookupA (addTags (c7Store c) ["test_note.md"] ["b", "c"]).2.indexes [] =
      some [("Test Note", { filename := ["test_note.md"], tags := ["a", "b", "c"] })] ∧
    (removeTags (addTags (c7Store c) ["test_note.md"] ["b", "c"]).2
      ["test_note.md"] ["a"]).1 = true ∧
    lookupA (removeTags (addTags (c7Store c) ["test_note.md"] ["b", "c"]).2
      ["test_note.md"] ["a"]).2.notes ["test_note.md"] =
      some ("# Test Note\nTags: b, c\n\n" ++ c) ∧
    lookupA (removeTags (addTags (c7Store c) ["test_note.md"] ["b", "c"]).2
      ["test_note.md"] ["a"]).2.indexes [] =
      some [("Test Note", { filename := ["test_note.md"], tags := ["b", "c"] })] := by
  have hnote1 : lookupA (addTags (c7Store c) ["test_note.md"] ["b", "c"]).2.notes
      ["test_note.md"] = some ("# Test Note\nTags: a, b, c\n\n" ++ c) := by
    have h1 : addTags (c7Store c) ["test_note.md"] ["b", "c"] =
        spliceTags (c7Store c) ["test_note.md"] []
          [("Test Note", { filename := ["test_note.md"], tags := ["a", "b"] })]
          "Test Note" { filename := ["test_note.md"], tags := ["a", "b"] }
          ["a", "b", "c"] := rfl
    rw [h1]
    unfold spliceTags
    dsimp only
    have hft : (lookupA (c7Store c).notes ["test_note.md"]).getD "" =
        "# Test Note\nTags: a, b\n\n" ++ c := rfl
    rw [hft, c7_lines, tagContentStart_standard _ _ _ _ (by decide) (by decide)]
    simp only [List.drop_succ_cons, List.drop_zero]
    rw [join_readLines]
    have h2 : ∀ v : String, lookupA (insertA (c7Store c).notes ["test_note.md"] v)
        ["test_note.md"] = some v := fun v => rfl
    simp only [saveIndex]
    rw [h2]
    rfl
  refine ⟨rfl, hnote1, rfl, rfl, ?_, rfl⟩
  have h1 : removeTags (addTags (c7Store c) ["test_note.md"] ["b", "c"]).2
      ["test_note.md"] ["a"] =
      spliceTags (addTags (c7Store c) ["test_note.md"] ["b", "c"]).2 ["test_note.md"] []
        [("Test Note", { filename := ["test_note.md"], tags := ["a", "b", "c"] })]
        "Test Note" { filename := ["test_note.md"], tags := ["a", "b", "c"] }
        ["b", "c"] := rfl
  rw [h1]
  unfold spliceTags
  dsimp only
  have hft : (lookupA (addTags (c7Store c) ["test_note.md"] ["b", "c"]).2.notes
      ["test_note.md"]).getD "" = "# Test Note\nTags: a, b, c\n\n" ++ c := by
    rw [hnote1]
    rfl
  rw [hft, c7_lines2, tagContentStart_standard _ _ _ _ (by decide) (by decide)]
  simp only [List.drop_succ_cons, List.drop_zero]
  rw [join_readLines]
  have h2 : ∀ v : String,
      lookupA (insertA (addTags (c7Store c) ["test_note.md"] ["b", "c"]).2.notes
        ["test_note.md"] v) ["test_note.md"] = some v := fun v => rfl
  simp only [saveIndex]
  rw [h2]
  rfl

/-! Claim C4: reference rewriting on move. -/

theorem lookupA_mapNotes (l : List (List String × String)) (oldS newS : String)
    (newF p : List String) (c : String) (hc : lookupA l p = some c) (hp : p ≠ newF) :
    lookupA (l.map (fun pc => if pc.1 = newF then pc
      else if hasSubstr pc.2 oldS then (pc.1, strReplace pc.2 oldS newS) else pc)) p =
    some (if hasSubstr c oldS = true then strReplace c oldS newS else c) := by
  induction l with
  | nil => exact absurd hc (by simp [lookupA])
  | cons kv t ih =>
    obtain ⟨k, v⟩ := kv
    simp only [lookupA] at hc
    rw [List.map_cons]
    by_cases hk : k = p
    · rw [if_pos hk] at hc
      injection hc with hc
      subst hk
      rw [← hc, if_neg hp]
      by_cases hs : hasSubstr v oldS = true
      · rw [if_pos hs, lookupA, if_pos rfl, if_pos hs]
      · rw [if_neg hs, lookupA, if_pos rfl, if_neg hs]
    · rw [if_neg hk] at hc
      by_cases hn : k = newF
      · rw [if_pos hn, lookupA, if_neg hk]
        exact ih hc
      · rw [if_neg hn]
        by_cases hs : hasSubstr v oldS = true
        · rw [if_pos hs, lookupA]
          dsimp only
          rw [if_neg hk]
          exact ih hc
        · rw [if_neg hs, lookupA, if_neg hk]
          exact ih hc

/-- C4: after `move_note` relocates `task.md` to `archive/task.md`, the note
that contained the old full filename has every occurrence replaced by the
new one, the note that did not contain it is byte-for-byte unchanged, and
the moved note itself is skipped; and, in general, the reference-rewriting
step maps every note file other than the moved note's new location to its
old content with all occurrences of the old filename replaced when it
occurs, and to its unchanged content otherwise. -/
theorem c4_move_rewrites_references :
    (moveNote c4Store ["task.md"] (some ["archive"])).map Prod.fst =
      some ["archive", "task.md"] ∧
    (moveNote c4Store ["task.md"] (some ["archive"])).map (fun r => r.2.notes) =
      some [(["main.md"], "See also archive/task.md for details"),
        (["other.md"], "no references here"),
        (["archive", "task.md"], "# Task\nTags: task\n\nTask content")] ∧
    (∀ (fs : FS) (oldF newF p : List String) (c : String),
      lookupA fs.notes p = some c → p ≠ newF →
      lookupA (updateNoteReferences fs oldF newF).notes p =
        some (if hasSubstr c (strOfPath oldF) = true
          then strReplace c (strOfPath oldF) (strOfPath newF) else c)) := by
  refine ⟨rfl, rfl, ?_⟩
  intro fs oldF newF p c hc hp
  unfold updateNoteReferences
  dsimp only
  exact lookupA_mapNotes fs.notes (strOfPath oldF) (strOfPath newF) newF p c hc hp

/-- C4 (witness): the per-file rewrite law applied to `main.md` of the
concrete store. -/
theorem c4_rewrite_witness :
    lookupA (updateNoteReferences c4Store ["task.md"] ["archive", "task.md"]).notes
      ["main.md"] =
    some (if hasSubstr "See also task.md for details" (strOfPath ["task.md"]) = true
      then strReplace "See also task.md for details" (strOfPath ["task.md"])
        (strOfPath ["archive", "task.md"])
      else "See also task.md for details") :=
  c4_move_rewrites_references.2.2 c4Store ["task.md"] ["archive", "task.md"]
    ["main.md"] "See also task.md for details" rfl (by decide)
